import Mathlib

/-!
Shallow embedding of the Fastssh CLI (config store, validators, installer,
provisioning orchestrator, connector error classification) together with
theorems settling the specification claims.
-/

namespace Fastssh

/-- JavaScript primitive values that occur in the config records and options. -/
inductive JsVal where
  | str (s : String)
  | num (n : Int)
  | null
  | undefined
deriving DecidableEq, Repr

/-- A JavaScript object, modelled as an insertion-ordered association list. -/
abbrev Obj := List (String × JsVal)

/-- First binding of a key in an association list, none when absent. -/
def lookupAssoc {α : Type} (l : List (String × α)) (k : String) : Option α :=
  match l.find? (fun p => p.1 == k) with
  | some p => some p.2
  | none => none

/-- Assignment l[k] = v: replaces the first binding in place, else appends. -/
def setAssoc {α : Type} (l : List (String × α)) (k : String) (v : α) : List (String × α) :=
  match l with
  | [] => [(k, v)]
  | (k0, v0) :: rest => if k0 == k then (k0, v) :: rest else (k0, v0) :: setAssoc rest k v

/-- Deletion of every binding of a key. -/
def delAssoc {α : Type} (l : List (String × α)) (k : String) : List (String × α) :=
  l.filter (fun p => p.1 != k)

/-- Property read obj[k]: undefined when the key is absent. -/
def jsGet (o : Obj) (k : String) : JsVal :=
  (lookupAssoc o k).getD .undefined

/-- JavaScript truthiness for the values we model. -/
def truthy : JsVal → Bool
  | .str s => s != ""
  | .num n => n != 0
  | .null => false
  | .undefined => false

/-- String payload of a value known to be a string. -/
def strVal : JsVal → String
  | .str s => s
  | _ => ""

/-- The on-disk config file of src/config/store.js: alias to record object. -/
abbrev Config := List (String × Obj)

/-- The OS secret store (keytar) under the fixed service name: account to password. -/
abbrev Secrets := List (String × String)

/-- State owned by src/config/store.js: the config file plus the secret store. -/
structure StoreState where
  config : Config
  secrets : Secrets
deriving DecidableEq, Repr

/-- Secret-store account name used for an alias (store.js line 47). -/
def passAccount (name : String) : String := name ++ ":passphrase"

/-- hasServer (store.js 20-22): record objects are truthy, so this is presence. -/
def hasServer (st : StoreState) (name : String) : Bool :=
  (lookupAssoc st.config name).isSome

/-- findServerByHostUser (store.js 24-32): first alias whose record has the given
host and user, null when no record matches. -/
def findServerByHostUser (st : StoreState) (host user : String) : Option String :=
  match st.config.find? (fun p => jsGet p.2 "host" == .str host && jsGet p.2 "user" == .str user) with
  | some p => some p.1
  | none => none

/-- The record object addServer builds for the config file (store.js 36-44): host,
user, a forced authType of key, and keyPath only when the input supplies one. -/
def addServerEntry (obj : Obj) : Obj :=
  if truthy (jsGet obj "keyPath") then
    [("host", jsGet obj "host"), ("user", jsGet obj "user"), ("authType", .str "key"),
     ("keyPath", jsGet obj "keyPath")]
  else
    [("host", jsGet obj "host"), ("user", jsGet obj "user"), ("authType", .str "key")]

/-- addServer (store.js 34-51): writes the built record under the alias and sends a
supplied passphrase to the secret store; nothing else reaches the config file. -/
def addServer (st : StoreState) (name : String) (obj : Obj) : StoreState :=
  { config := setAssoc st.config name (addServerEntry obj),
    secrets :=
      if truthy (jsGet obj "passphrase")
      then setAssoc st.secrets (passAccount name) (strVal (jsGet obj "passphrase"))
      else st.secrets }

/-- getServer (store.js 53-69): undefined for a missing alias; for key auth the
keytar lookup result (null when the entry is absent, per the keytar API) is
attached as the passphrase property of a copy of the record. -/
def getServer (st : StoreState) (name : String) : Option Obj :=
  match lookupAssoc st.config name with
  | none => none
  | some cfg =>
    if jsGet cfg "authType" == .str "key" then
      let passphrase : JsVal :=
        match lookupAssoc st.secrets (passAccount name) with
        | some s => .str s
        | none => .null
      some (setAssoc cfg "passphrase" passphrase)
    else
      some cfg

/-- removeServer (store.js 71-81): deletes the config entry and best-effort deletes
the secret-store entry; a missing secret entry does not fail (the deletion is
wrapped in a try block whose catch ignores the error), so the operation is total. -/
def removeServer (st : StoreState) (name : String) : StoreState :=
  { config := delAssoc st.config name,
    secrets := delAssoc st.secrets (passAccount name) }

/-- Numeric value of a run of decimal digit characters, most significant first. -/
def digitsToNat (cs : List Char) : Nat :=
  cs.foldl (fun acc c => 10 * acc + (c.toNat - 48)) 0

/-- Number.parseInt(s, 10): skip leading whitespace, an optional sign, then the
longest run of decimal digits; NaN (none) when that run is empty. -/
def parseIntJS (s : String) : Option Int :=
  let cs := s.data.dropWhile (fun c => c.isWhitespace)
  let signed : Bool × List Char :=
    match cs with
    | c :: rest => if c == '-' then (true, rest) else if c == '+' then (false, rest) else (false, cs)
    | [] => (false, [])
  let digits := signed.2.takeWhile (fun c => c.isDigit)
  if digits.isEmpty then none
  else
    let n : Nat := digitsToNat digits
    some (if signed.1 then -(n : Int) else (n : Int))

/-- validatePort (edge-cases.js 116-128): parseInt, a NaN check, then the range
check; some port models valid true with the parsed port, none models valid false. -/
def validatePort (port : String) : Option Int :=
  match parseIntJS port with
  | none => none
  | some num => if num < 1 || num > 65535 then none else some num

/-- Little-endian decimal digit characters, fuel-driven so the kernel can reduce. -/
def natDigitsRevAux : Nat → Nat → List Char
  | 0, _ => []
  | fuel + 1, n =>
    if n < 10 then [Char.ofNat (48 + n)]
    else Char.ofNat (48 + n % 10) :: natDigitsRevAux fuel (n / 10)

/-- Little-endian decimal digit characters of a natural number. -/
def natDigitsRev (n : Nat) : List Char := natDigitsRevAux (n + 1) n

/-- Display form of a nonnegative exact integer per the ECMA Number toString
algorithm: plain base-10 digits while the digit count n is at most 21, and
beyond that the exponent form d.dddde+(n-1) built from the significant digits
with trailing zeros stripped. -/
def natToDisplay (m : Nat) : List Char :=
  let rev := natDigitsRev m
  if rev.length ≤ 21 then rev.reverse
  else
    let sig := rev.dropWhile (fun c => c == '0')
    match sig.reverse with
    | [] => ['0']
    | d :: rest =>
      (if rest.isEmpty then [d] else d :: '.' :: rest) ++
        ('e' :: '+' :: (natDigitsRev (rev.length - 1)).reverse)

/-- JS String(n) for an integer whose double representation is exact: a minus
sign for negatives followed by the ECMA display form, which switches to
exponent notation at 10 to the 21st. -/
def jsIntToString (n : Int) : String :=
  if n < 0 then String.mk ('-' :: natToDisplay n.natAbs)
  else String.mk (natToDisplay n.natAbs)

/-- validatePort applied to an integer argument: parseInt converts its argument
to a string first, so an integer input goes through the JS string form,
exponent notation included. -/
def validatePortNum (p : Int) : Option Int := validatePort (jsIntToString p)

example : jsIntToString (10 ^ 21) = "1e+21" := by decide
example : jsIntToString (-(1234 * 10 ^ 18)) = "-1.234e+21" := by decide
example : jsIntToString (10 ^ 20) = "100000000000000000000" := by decide

example : validatePort "22abc" = some 22 := by decide
example : validatePort "8.5" = some 8 := by decide
example : validatePortNum 65535 = some 65535 := by decide
example : validatePortNum (-3) = none := by decide
example : validatePortNum 0 = none := by decide

lemma digitChar_class (d : Nat) (hd : d < 10) :
    (Char.ofNat (48 + d)).isDigit = true ∧
    (Char.ofNat (48 + d)).isWhitespace = false ∧
    ((Char.ofNat (48 + d)) == '-') = false ∧
    ((Char.ofNat (48 + d)) == '+') = false ∧
    (Char.ofNat (48 + d)).toNat = 48 + d := by
  interval_cases d <;> exact ⟨rfl, rfl, rfl, rfl, rfl⟩

lemma digitsToNat_append (xs : List Char) (c : Char) :
    digitsToNat (xs ++ [c]) = 10 * digitsToNat xs + (c.toNat - 48) := by
  simp [digitsToNat, List.foldl_append]

lemma natDigitsRevAux_spec (fuel : Nat) : ∀ n, n < fuel →
    natDigitsRevAux fuel n ≠ [] ∧
    (∀ c ∈ natDigitsRevAux fuel n, ∃ d, d < 10 ∧ c = Char.ofNat (48 + d)) ∧
    digitsToNat ((natDigitsRevAux fuel n).reverse) = n := by
  induction fuel with
  | zero => intro n h; omega
  | succ f ih =>
    intro n h
    by_cases h10 : n < 10
    · refine ⟨by simp [natDigitsRevAux, h10], ?_, ?_⟩
      · intro c hc
        simp [natDigitsRevAux, h10] at hc
        exact ⟨n, h10, hc⟩
      · simp [natDigitsRevAux, h10, digitsToNat, (digitChar_class n h10).2.2.2.2]
    · have hdiv : n / 10 < f := by
        have := Nat.div_lt_self (by omega : 0 < n) (by omega : 1 < 10)
        omega
      obtain ⟨ne, mem, val⟩ := ih (n / 10) hdiv
      refine ⟨by simp [natDigitsRevAux, h10], ?_, ?_⟩
      · intro c hc
        simp only [natDigitsRevAux, h10, if_false, List.mem_cons] at hc
        rcases hc with hc | hc
        · exact ⟨n % 10, by omega, hc⟩
        · exact mem c hc
      · have hmod : (Char.ofNat (48 + n % 10)).toNat = 48 + n % 10 :=
          (digitChar_class (n % 10) (by omega)).2.2.2.2
        simp only [natDigitsRevAux, h10, if_false, List.reverse_cons, digitsToNat_append, val, hmod]
        omega

lemma natDigitsRev_spec (n : Nat) :
    natDigitsRev n ≠ [] ∧
    (∀ c ∈ natDigitsRev n, ∃ d, d < 10 ∧ c = Char.ofNat (48 + d)) ∧
    digitsToNat ((natDigitsRev n).reverse) = n :=
  natDigitsRevAux_spec (n + 1) n (by omega)

lemma takeWhileAll {p : Char → Bool} : ∀ l : List Char, (∀ c ∈ l, p c = true) → l.takeWhile p = l := by
  intro l h
  induction l with
  | nil => rfl
  | cons a t ih =>
    simp only [List.takeWhile_cons, h a (by simp)]
    simpa using ih fun c hc => h c (by simp [hc])

lemma parse_natDigits (n : Nat) :
    parseIntJS (String.mk ((natDigitsRev n).reverse)) = some (n : Int) := by
  obtain ⟨ne, mem, val⟩ := natDigitsRev_spec n
  have memrev : ∀ c ∈ (natDigitsRev n).reverse, ∃ d, d < 10 ∧ c = Char.ofNat (48 + d) := by
    intro c hc; exact mem c (List.mem_reverse.mp hc)
  obtain ⟨c0, rest, hL⟩ : ∃ c0 rest, (natDigitsRev n).reverse = c0 :: rest := by
    cases hrev : (natDigitsRev n).reverse with
    | nil => exact absurd (by simpa using congrArg List.reverse hrev) ne
    | cons a t => exact ⟨a, t, rfl⟩
  obtain ⟨d0, hd0, hc0⟩ := memrev c0 (by rw [hL]; simp)
  have hclass := digitChar_class d0 hd0
  unfold parseIntJS
  have hdata : (String.mk ((natDigitsRev n).reverse)).data = (natDigitsRev n).reverse := rfl
  rw [hdata, hL]
  have hws : c0.isWhitespace = false := by rw [hc0]; exact hclass.2.1
  have hminus : (c0 == '-') = false := by rw [hc0]; exact hclass.2.2.1
  have hplus : (c0 == '+') = false := by rw [hc0]; exact hclass.2.2.2.1
  simp only [List.dropWhile_cons, hws, Bool.false_eq_true, if_false, hminus, hplus]
  have htake : (c0 :: rest).takeWhile (fun c => c.isDigit) = c0 :: rest := by
    refine takeWhileAll _ ?_
    intro c hc
    obtain ⟨d, hd, hcd⟩ := memrev c (by rw [hL]; exact hc)
    rw [hcd]; exact (digitChar_class d hd).1
  simp only [htake]
  have hne : (c0 :: rest).isEmpty = false := rfl
  simp only [hne, Bool.false_eq_true, if_false]
  have : digitsToNat (c0 :: rest) = n := by rw [← hL]; exact val
  simp [this]

lemma natDigitsRevAux_length (fuel : Nat) : ∀ n k, n < fuel → 1 ≤ k → n < 10 ^ k →
    (natDigitsRevAux fuel n).length ≤ k := by
  induction fuel with
  | zero => intro n k h; omega
  | succ f ih =>
    intro n k hf hk hn
    by_cases h10 : n < 10
    · simpa [natDigitsRevAux, h10] using hk
    · have hk2 : 2 ≤ k := by
        rcases Nat.lt_or_ge k 2 with hlt | hge
        · exfalso
          have hk1 : k = 1 := by omega
          rw [hk1] at hn
          simp at hn
          omega
        · exact hge
      have hdiv : n / 10 < f := by
        have := Nat.div_lt_self (by omega : 0 < n) (by omega : 1 < 10)
        omega
      have hpow : 10 ^ k = 10 * 10 ^ (k - 1) := by
        obtain ⟨j, hj⟩ : ∃ j, k = j + 1 := ⟨k - 1, by omega⟩
        rw [hj, pow_succ, Nat.add_sub_cancel, Nat.mul_comm]
      have hdiv10 : n / 10 < 10 ^ (k - 1) := by
        rw [Nat.div_lt_iff_lt_mul (by omega : 0 < 10)]
        omega
      have := ih (n / 10) (k - 1) hdiv (by omega) hdiv10
      simp only [natDigitsRevAux, h10, if_false, List.length_cons]
      omega

lemma natToDisplay_decimal (m : Nat) (hm : m < 10 ^ 21) :
    natToDisplay m = (natDigitsRev m).reverse := by
  have hlen : (natDigitsRev m).length ≤ 21 :=
    natDigitsRevAux_length (m + 1) m 21 (by omega) (by omega) hm
  simp [natToDisplay, hlen]

lemma parseInt_roundtrip (p : Int) (hrange : p.natAbs < 10 ^ 21) :
    parseIntJS (jsIntToString p) = some p := by
  by_cases hp : p < 0
  · unfold jsIntToString
    rw [if_pos hp, natToDisplay_decimal p.natAbs hrange]
    obtain ⟨ne, mem, val⟩ := natDigitsRev_spec p.natAbs
    unfold parseIntJS
    have hdata : (String.mk ('-' :: (natDigitsRev p.natAbs).reverse)).data
        = '-' :: (natDigitsRev p.natAbs).reverse := rfl
    rw [hdata]
    simp only [List.dropWhile_cons, show ('-').isWhitespace = false from rfl,
      Bool.false_eq_true, if_false, show (('-') == '-') = true from rfl, if_true]
    have htake : ((natDigitsRev p.natAbs).reverse).takeWhile (fun c => c.isDigit)
        = (natDigitsRev p.natAbs).reverse := by
      refine takeWhileAll _ ?_
      intro c hc
      obtain ⟨d, hd, hcd⟩ := mem c (List.mem_reverse.mp hc)
      rw [hcd]; exact (digitChar_class d hd).1
    simp only [htake]
    have hrevne : (natDigitsRev p.natAbs).reverse ≠ [] := by
      intro habs; exact ne (by simpa using congrArg List.reverse habs)
    have hne : ((natDigitsRev p.natAbs).reverse).isEmpty = false := by
      cases hrev : (natDigitsRev p.natAbs).reverse with
      | nil => exact absurd hrev hrevne
      | cons a t => rfl
    simp only [hne, Bool.false_eq_true, if_false, val]
    congr 1
    omega
  · unfold jsIntToString
    rw [if_neg hp, natToDisplay_decimal p.natAbs hrange]
    rw [parse_natDigits p.natAbs]
    congr 1
    omega

lemma validatePort_parse (s : String) (n : Int) (h : parseIntJS s = some n) :
    validatePort s = if (decide (n < 1) || decide (n > 65535)) = true then none else some n := by
  unfold validatePort
  rw [h]

/-- Counterexample for C7: at the exactly representable integer 10 to the 21st,
JS stringifies in exponent form, parseInt truncates at the letter e, and
validatePort succeeds with port 1 although the integer is far outside the range
1 to 65535 - so the all-integer iff of the claim is false of the program. -/
theorem validatePort_exponent_counterexample :
    jsIntToString (10 ^ 21) = "1e+21" ∧
    validatePortNum (10 ^ 21) = some 1 ∧
    ¬((10 : Int) ^ 21 ≤ 65535) := by
  refine ⟨by decide, by decide, by decide⟩

/-- C7 amended: for every integer p below 10 to the 21st in magnitude - the
range where JS String(p) is plain decimal - validatePort(p) succeeds iff
1 le p le 65535; at the boundaries 0 and 65536 fail while 1 and 65535 succeed.
At or beyond 10 to the 21st the string form is exponential and an out-of-range
integer can validate spuriously. -/
theorem validatePort_range_iff :
    (∀ p : Int, p.natAbs < 10 ^ 21 →
      ((validatePortNum p).isSome = true ↔ 1 ≤ p ∧ p ≤ 65535)) ∧
    validatePortNum 0 = none ∧ validatePortNum 65536 = none ∧
    validatePortNum 1 = some 1 ∧ validatePortNum 65535 = some 65535 := by
  refine ⟨fun p hrange => ?_, by decide, by decide, by decide, by decide⟩
  unfold validatePortNum
  rw [validatePort_parse _ p (parseInt_roundtrip p hrange)]
  by_cases h : 1 ≤ p ∧ p ≤ 65535
  · have h1 : decide (p < 1) = false := by simp; omega
    have h2 : decide (p > 65535) = false := by simp; omega
    simp [h1, h2, h]
  · have hcond : (decide (p < 1) || decide (p > 65535)) = true := by
      rcases (by omega : p < 1 ∨ p > 65535) with hh | hh <;> simp [hh]
    simp only [hcond, if_true, Option.isSome_none, Bool.false_eq_true, false_iff]
    exact h

/-- Witness for C7 amended: the theorem applied at the in-range integer 22,
together with its boundary conjuncts. -/
theorem validatePort_range_iff_witness :
    (validatePortNum 22).isSome = true ∧ validatePortNum 0 = none ∧
    validatePortNum 65536 = none ∧ validatePortNum 1 = some 1 ∧
    validatePortNum 65535 = some 65535 :=
  ⟨(validatePort_range_iff.1 22 (by decide)).mpr (by decide),
   validatePort_range_iff.2.1, validatePort_range_iff.2.2.1,
   validatePort_range_iff.2.2.2.1, validatePort_range_iff.2.2.2.2⟩

/-- C10: any string whose leading characters parse to an in-range integer is
accepted by validatePort, which returns the truncated integer as the port. -/
theorem validatePort_leading_parse (s : String) (n : Int)
    (hparse : parseIntJS s = some n) (h1 : 1 ≤ n) (h2 : n ≤ 65535) :
    validatePort s = some n := by
  rw [validatePort_parse s n hparse]
  rw [if_neg]
  simp
  omega

/-- Witness for C10 at the two concrete inputs named by the claim. -/
theorem validatePort_leading_parse_witness :
    validatePort "22abc" = some 22 ∧ validatePort "8.5" = some 8 :=
  ⟨validatePort_leading_parse "22abc" 22 (by decide) (by decide) (by decide),
   validatePort_leading_parse "8.5" 8 (by decide) (by decide) (by decide)⟩

@[simp] lemma lookupAssoc_nil {α : Type} (k : String) :
    lookupAssoc ([] : List (String × α)) k = none := rfl

@[simp] lemma lookupAssoc_cons {α : Type} (k0 : String) (v0 : α) (rest : List (String × α)) (k : String) :
    lookupAssoc ((k0, v0) :: rest) k = if k0 == k then some v0 else lookupAssoc rest k := by
  by_cases h : k0 == k <;> simp [lookupAssoc, List.find?_cons, h]

lemma lookupAssoc_setAssoc_self {α : Type} (l : List (String × α)) (k : String) (v : α) :
    lookupAssoc (setAssoc l k v) k = some v := by
  induction l with
  | nil => simp [setAssoc]
  | cons p rest ih =>
    obtain ⟨k0, v0⟩ := p
    by_cases h : k0 == k <;> simp [setAssoc, h, ih]

lemma lookupAssoc_delAssoc_self {α : Type} (l : List (String × α)) (k : String) :
    lookupAssoc (delAssoc l k) k = none := by
  induction l with
  | nil => rfl
  | cons p rest ih =>
    obtain ⟨k0, v0⟩ := p
    by_cases h : k0 = k
    · simpa [delAssoc, List.filter_cons, h] using ih
    · simpa [delAssoc, List.filter_cons, h] using ih

/-- C9: the record addServer writes contains exactly host, user, a forced key
authType, and keyPath when supplied; port and passphrase never reach the config
file, and the secret store changes only when a passphrase is supplied. -/
theorem addServer_frame (st : StoreState) (name : String) (obj : Obj) :
    lookupAssoc (addServer st name obj).config name = some (addServerEntry obj) ∧
    (addServerEntry obj).map Prod.fst =
      (if truthy (jsGet obj "keyPath") then ["host", "user", "authType", "keyPath"]
       else ["host", "user", "authType"]) ∧
    lookupAssoc (addServerEntry obj) "port" = none ∧
    lookupAssoc (addServerEntry obj) "passphrase" = none ∧
    jsGet (addServerEntry obj) "authType" = .str "key" ∧
    (addServer st name obj).secrets =
      (if truthy (jsGet obj "passphrase")
       then setAssoc st.secrets (passAccount name) (strVal (jsGet obj "passphrase"))
       else st.secrets) := by
  refine ⟨lookupAssoc_setAssoc_self .., ?_, ?_, ?_, ?_, rfl⟩
  all_goals
    simp only [jsGet, addServerEntry]
    by_cases h : truthy ((lookupAssoc obj "keyPath").getD JsVal.undefined) <;> simp [h]

/-- Concrete input of the end-to-end scenario: alias web1 with port 22 supplied. -/
def web1Input : Obj :=
  [("host", .str "203.0.113.10"), ("user", .str "deploy"), ("port", .num 22),
   ("authType", .str "key"), ("keyPath", .str "~/.ssh/id_rsa")]

/-- A store with no config file and no secret-store entries. -/
def emptyStore : StoreState := { config := [], secrets := [] }

/-- C1: evaluation at the failing input. After addServer of the web1 fields with
port 22, getServer returns a record whose fields are host, user, authType,
keyPath and a null passphrase: the port field is dropped and comes back
undefined, contradicting the claimed round-trip of the full field set. -/
theorem addServer_getServer_drops_port :
    getServer (addServer emptyStore "web1" web1Input) "web1" =
      some [("host", .str "203.0.113.10"), ("user", .str "deploy"), ("authType", .str "key"),
            ("keyPath", .str "~/.ssh/id_rsa"), ("passphrase", .null)] ∧
    jsGet ((getServer (addServer emptyStore "web1" web1Input) "web1").getD []) "port" = .undefined := by
  exact ⟨rfl, rfl⟩

/-- C6: for a stored key-auth record with no secret-store entry, getServer returns
the record with a null passphrase instead of raising, and removeServer of the
alias still succeeds (it is total and deletes the config entry). -/
theorem getServer_missing_secret (st : StoreState) (name : String) (entry : Obj)
    (hlook : lookupAssoc st.config name = some entry)
    (hkey : jsGet entry "authType" = .str "key")
    (hnosecret : lookupAssoc st.secrets (passAccount name) = none) :
    getServer st name = some (setAssoc entry "passphrase" .null) ∧
    jsGet (setAssoc entry "passphrase" .null) "passphrase" = .null ∧
    lookupAssoc (removeServer st name).config name = none := by
  refine ⟨?_, ?_, lookupAssoc_delAssoc_self ..⟩
  · simp [getServer, hlook, hkey, hnosecret]
  · simp [jsGet, lookupAssoc_setAssoc_self]

/-- Witness for C6 at a concrete one-record store with an empty secret store. -/
theorem getServer_missing_secret_witness :
    getServer ⟨[("web1", [("host", .str "1.2.3.4"), ("user", .str "u"), ("authType", .str "key")])], []⟩ "web1"
      = some (setAssoc [("host", .str "1.2.3.4"), ("user", .str "u"), ("authType", .str "key")] "passphrase" .null) ∧
    jsGet (setAssoc [("host", .str "1.2.3.4"), ("user", .str "u"), ("authType", .str "key")] "passphrase" .null) "passphrase" = .null ∧
    lookupAssoc (removeServer ⟨[("web1", [("host", .str "1.2.3.4"), ("user", .str "u"), ("authType", .str "key")])], []⟩ "web1").config "web1" = none :=
  getServer_missing_secret _ "web1" _ rfl rfl rfl

/-- Containment of one character list inside another. -/
def isInfixList (pat : List Char) : List Char → Bool
  | [] => pat.isEmpty
  | c :: rest => pat.isPrefixOf (c :: rest) || isInfixList pat rest

/-- JS substring test s.includes(sub). -/
def includesJS (s sub : String) : Bool := isInfixList sub.data s.data

/-- ASCII lower-casing of one character; the matched patterns are all ASCII. -/
def toLowerChar (c : Char) : Char :=
  if 65 ≤ c.toNat && c.toNat ≤ 90 then Char.ofNat (c.toNat + 32) else c

/-- JS toLowerCase restricted to the ASCII range the classifier relies on. -/
def toLowerJS (s : String) : String := String.mk (s.data.map toLowerChar)

/-- Classification produced by handleConnectionError (connect.js 121-148); the
authFail flag records whether the key-specific remediation guidance is printed. -/
inductive ConnErrClass where
  | resolveFail
  | refused
  | timedOut
  | authFail (keyGuidance : Bool)
  | passthrough (raw : String)
deriving DecidableEq, Repr

/-- handleConnectionError (connect.js 121-148) as a function of the raw error
message and the authType argument it receives: the lower-cased text is matched in
the order resolution, refusal, timeout, authentication, raw pass-through. -/
def handleConnectionError (msg : String) (authType : JsVal) : ConnErrClass :=
  let errorMsg := toLowerJS msg
  if includesJS errorMsg "enotfound" || includesJS errorMsg "getaddrinfo" then .resolveFail
  else if includesJS errorMsg "econnrefused" then .refused
  else if includesJS errorMsg "etimedout" || includesJS errorMsg "timeout" then .timedOut
  else if includesJS errorMsg "authentication" || includesJS errorMsg "permission denied" then
    .authFail (authType == .str "key")
  else .passthrough msg

/-- Identifiers bound in the scopes that enclose connect.js line 117, where the
catch block of connect evaluates the call handleConnectionError(err, name,
authType): the catch parameter, the bindings of the connect function body, and
the module-level imports and function declarations. No binding is named
authType anywhere in the file. -/
def connectScopeNames : List String :=
  ["err", "name", "cfg", "ssh",
   "NodeSSH", "getServer", "log", "fs", "os",
   "validateServerName", "validateServerConfig", "validatePrivateKeyExists",
   "connect", "handleConnectionError"]

/-- Runtime errors of the JS evaluation we model. -/
inductive JsRuntimeError where
  | referenceError (ident : String)
deriving DecidableEq, Repr

/-- The error path of connect (connect.js 116-118): before handleConnectionError
can run, the argument expression authType must resolve against the enclosing
scopes; an identifier bound nowhere throws a ReferenceError. The ok branch is
unreachable because no scope binds authType, so the value it would pass is moot
and modelled as undefined. -/
def connectCatchOutcome (errMsg : String) : Except JsRuntimeError ConnErrClass :=
  if "authType" ∈ connectScopeNames then
    .ok (handleConnectionError errMsg .undefined)
  else
    .error (.referenceError "authType")

/-- C3: evaluation at the failing input. The catch block of connect throws a
ReferenceError for the unbound identifier authType before any classification
happens, while the classifier itself, had it been reached with the stored
authType of key, would classify the scenarios exactly as the claim states. -/
theorem connect_error_classification :
    connectCatchOutcome "authentication failed" = .error (.referenceError "authType") ∧
    handleConnectionError "authentication failed" (.str "key") = .authFail true ∧
    handleConnectionError "Permission denied (publickey)" (.str "key") = .authFail true ∧
    handleConnectionError "authentication failed" (.str "password") = .authFail false ∧
    handleConnectionError "connect ECONNREFUSED 1.2.3.4:22" (.str "key") = .refused ∧
    handleConnectionError "getaddrinfo ENOTFOUND nosuch.host" (.str "key") = .resolveFail ∧
    handleConnectionError "connect ETIMEDOUT" (.str "key") = .timedOut ∧
    handleConnectionError "boom" (.str "key") = .passthrough "boom" := by
  refine ⟨rfl, ?_, ?_, ?_, ?_, ?_, ?_, ?_⟩ <;> decide

/-- Result of one remote command (init.js execCommand): exit code (none models a
null code), stdout and stderr. -/
structure ExecResult where
  code : Option Int
  stdout : String
  stderr : String
deriving DecidableEq, Repr

/-- Success test both installer methods apply: code === 0 or code === null. -/
def execOk (r : ExecResult) : Bool := r.code == some 0 || r.code == none

/-- A single-quote character, written by code point. -/
def sq : String := String.mk [Char.ofNat 39]

/-- The replacement text for one single quote: quote backslash quote quote. -/
def escSq : String := String.mk [Char.ofNat 39, Char.ofNat 92, Char.ofNat 39, Char.ofNat 39]

/-- The quote escaping of tryDirectAppendMethod (init.js 60): every single quote
in the key line is replaced by the four-character escape sequence. -/
def escapeKeyLine (keyLine : String) : String := keyLine.replace sq escSq

/-- The shell command of Method 1 (init.js 61). -/
def command1 (keyLine : String) : String :=
  "echo " ++ sq ++ escapeKeyLine keyLine ++ sq ++ " >> ~/.ssh/authorized_keys"

/-- The standard base64 alphabet. -/
def b64Chars : List Char :=
  "ABCDEFGHIJKLMNOPQRSTUVWXYZabcdefghijklmnopqrstuvwxyz0123456789+/".data

/-- Character of a six-bit group. -/
def b64Char (n : Nat) : Char := b64Chars.getD n 'A'

/-- Base64 encoding of a byte list, with padding. -/
def base64Bytes : List UInt8 → List Char
  | [] => []
  | [a] =>
    [b64Char (a.toNat / 4), b64Char ((a.toNat % 4) * 16), '=', '=']
  | [a, b] =>
    [b64Char ((a.toNat * 256 + b.toNat) / 1024), b64Char (((a.toNat * 256 + b.toNat) / 16) % 64),
     b64Char (((a.toNat * 256 + b.toNat) % 16) * 4), '=']
  | a :: b :: c :: rest =>
    [b64Char ((a.toNat * 65536 + b.toNat * 256 + c.toNat) / 262144),
     b64Char (((a.toNat * 65536 + b.toNat * 256 + c.toNat) / 4096) % 64),
     b64Char (((a.toNat * 65536 + b.toNat * 256 + c.toNat) / 64) % 64),
     b64Char ((a.toNat * 65536 + b.toNat * 256 + c.toNat) % 64)]
      ++ base64Bytes rest

/-- UTF-8 byte sequence of one character. -/
def utf8Bytes (c : Char) : List UInt8 :=
  let n := c.toNat
  if n < 128 then [UInt8.ofNat n]
  else if n < 2048 then [UInt8.ofNat (192 + n / 64), UInt8.ofNat (128 + n % 64)]
  else if n < 65536 then
    [UInt8.ofNat (224 + n / 4096), UInt8.ofNat (128 + (n / 64) % 64), UInt8.ofNat (128 + n % 64)]
  else
    [UInt8.ofNat (240 + n / 262144), UInt8.ofNat (128 + (n / 4096) % 64),
     UInt8.ofNat (128 + (n / 64) % 64), UInt8.ofNat (128 + n % 64)]

/-- UTF-8 bytes of a string, as Buffer.from produces. -/
def strBytes (s : String) : List UInt8 := (s.data.map utf8Bytes).flatten

/-- Buffer.from(keyLine plus a newline).toString(base64) (init.js 76). -/
def base64OfString (s : String) : String := String.mk (base64Bytes (strBytes s))

/-- The shell command of Method 2 (init.js 77). -/
def command2 (keyLine : String) : String :=
  "echo " ++ sq ++ base64OfString (keyLine ++ "\n") ++ sq ++ " | base64 -d >> ~/.ssh/authorized_keys"

example : base64OfString "a\n" = "YQo=" := by decide

/-- The mkdir command addPublicKeyToRemote issues first (init.js 93). -/
def mkdirCmd : String := "mkdir -p ~/.ssh && chmod 700 ~/.ssh"

/-- The chmod command issued after a successful append (init.js 66 and 82). -/
def chmodCmd : String := "chmod 600 ~/.ssh/authorized_keys"

/-- JS String.prototype.trim: strip whitespace from both ends (init.js 98). -/
def trimJS (s : String) : String :=
  String.mk (((s.data.dropWhile (fun c => c.isWhitespace)).reverse.dropWhile
    (fun c => c.isWhitespace)).reverse)

/-- Outcome of one installer method: true on success, else the failure object
carrying the stderr of the attempt. -/
inductive MethodResult where
  | ok
  | failed (stderr : String)
deriving DecidableEq, Repr

/-- tryDirectAppendMethod (init.js 58-71) against a session oracle, also
returning the commands issued in order. -/
def tryDirectAppendMethod (ssh : String → ExecResult) (keyLine : String) :
    MethodResult × List String :=
  if execOk (ssh (command1 keyLine)) then (.ok, [command1 keyLine, chmodCmd])
  else (.failed (ssh (command1 keyLine)).stderr, [command1 keyLine])

/-- tryBase64Method (init.js 73-87) against a session oracle, also returning the
commands issued in order. -/
def tryBase64Method (ssh : String → ExecResult) (keyLine : String) :
    MethodResult × List String :=
  if execOk (ssh (command2 keyLine)) then (.ok, [command2 keyLine, chmodCmd])
  else (.failed (ssh (command2 keyLine)).stderr, [command2 keyLine])

/-- Report of addPublicKeyToRemote: overall success and the surfaced diagnostic
log lines on double failure. -/
structure InstallReport where
  success : Bool
  logs : List String
deriving DecidableEq, Repr

/-- addPublicKeyToRemote (init.js 89-118): mkdir, then Method 1, then Method 2
only when Method 1 failed; on double failure both stderr texts are surfaced.
The session oracle is total: a throwing execCommand exits through the callers
outer catch and is outside this function. Returns the report and the full
command trace. -/
def addPublicKeyToRemote (ssh : String → ExecResult) (pubKeyContent : String) :
    InstallReport × List String :=
  let keyLine := trimJS pubKeyContent
  match tryDirectAppendMethod ssh keyLine with
  | (.ok, t1) => ({ success := true, logs := [] }, mkdirCmd :: t1)
  | (.failed e1, t1) =>
    match tryBase64Method ssh keyLine with
    | (.ok, t2) => ({ success := true, logs := [] }, mkdirCmd :: (t1 ++ t2))
    | (.failed e2, t2) =>
      ({ success := false,
         logs := ["Method 1 stderr: " ++ e1, "Method 2 stderr: " ++ e2] },
       mkdirCmd :: (t1 ++ t2))

/-- C4: Method 1 is always attempted first, Method 2 exactly when Method 1
failed; either success yields a success report, and a double failure yields a
failure report surfacing both stderr texts. -/
theorem installer_fallback_order (ssh : String → ExecResult) (pubKeyContent : String) :
    (execOk (ssh (command1 (trimJS pubKeyContent))) = true →
      addPublicKeyToRemote ssh pubKeyContent =
        ({ success := true, logs := [] },
         [mkdirCmd, command1 (trimJS pubKeyContent), chmodCmd])) ∧
    (execOk (ssh (command1 (trimJS pubKeyContent))) = false →
      execOk (ssh (command2 (trimJS pubKeyContent))) = true →
      addPublicKeyToRemote ssh pubKeyContent =
        ({ success := true, logs := [] },
         [mkdirCmd, command1 (trimJS pubKeyContent), command2 (trimJS pubKeyContent), chmodCmd])) ∧
    (execOk (ssh (command1 (trimJS pubKeyContent))) = false →
      execOk (ssh (command2 (trimJS pubKeyContent))) = false →
      addPublicKeyToRemote ssh pubKeyContent =
        ({ success := false,
           logs := ["Method 1 stderr: " ++ (ssh (command1 (trimJS pubKeyContent))).stderr,
                    "Method 2 stderr: " ++ (ssh (command2 (trimJS pubKeyContent))).stderr] },
         [mkdirCmd, command1 (trimJS pubKeyContent), command2 (trimJS pubKeyContent)])) := by
  refine ⟨fun h1 => ?_, fun h1 h2 => ?_, fun h1 h2 => ?_⟩ <;>
    simp [addPublicKeyToRemote, tryDirectAppendMethod, tryBase64Method, h1]
  · simp [h2]
  · simp [h2]

/-- A concrete session oracle on which both installer methods fail. -/
def failingSsh : String → ExecResult := fun c =>
  if c == mkdirCmd then { code := some 0, stdout := "", stderr := "" }
  else { code := some 1, stdout := "", stderr := "failed: " ++ c }

/-- Witness for C4: on a session where both methods fail, the report is a failure
carrying both stderr texts and the trace shows Method 1 before Method 2. -/
theorem installer_fallback_order_witness :
    addPublicKeyToRemote failingSsh "ssh-rsa AAAATESTKEY comment\n" =
      ({ success := false,
         logs := ["Method 1 stderr: " ++ (failingSsh (command1 "ssh-rsa AAAATESTKEY comment")).stderr,
                  "Method 2 stderr: " ++ (failingSsh (command2 "ssh-rsa AAAATESTKEY comment")).stderr] },
       [mkdirCmd, command1 "ssh-rsa AAAATESTKEY comment", command2 "ssh-rsa AAAATESTKEY comment"]) := by
  have h := (installer_fallback_order failingSsh "ssh-rsa AAAATESTKEY comment\n").2.2
  exact h (by decide) (by decide)

/-- Events recorded along an init run, in execution order. -/
inductive InitEv where
  | removeWrite (name : String)
  | keyEnsured (generated : Bool)
  | netConnect
  | conflictRejected (existing : String)
  | addWrite (name : String)
deriving DecidableEq, Repr

/-- Exit points of init (init.js 172-301); the process.exit calls are outcomes. -/
inductive InitOutcome where
  | canceled
  | keygenFailExit
  | conflictExit (existing : String)
  | caughtExit
  | noPubKeyExit
  | installFailExit
  | keyReadFailExit
  | verifyFailExit
  | success
deriving DecidableEq, Repr

/-- Environment of one init run: prompt answers and remote-world behavior. -/
structure InitEnv where
  replaceAnswer : Bool
  host : String
  user : String
  port : Int
  keyExists : Bool
  keygenOk : Bool
  connectOk : Bool
  pubKey : Option String
  ssh : String → ExecResult
  checkConfigThrows : Bool
  privKeyReadable : Bool
  verifyOk : Bool

/-- Result of one init run: exit point, final store state, event trace. -/
structure InitRun where
  outcome : InitOutcome
  store : StoreState
  trace : List InitEv

/-- The record object init passes to addServer (init.js 281-287), including the
port with its or-22 fallback. -/
def initRecord (env : InitEnv) : Obj :=
  [("host", .str env.host), ("user", .str env.user),
   ("port", .num (if env.port == 0 then 22 else env.port)),
   ("authType", .str "key"), ("keyPath", .str "~/.ssh/id_rsa")]

/-- Steps 4 to 7 of init (init.js 249-289): password session, public key install,
config check, key verification session, then the store write. -/
def initSession (env : InitEnv) (st1 : StoreState) (name : String) (tr2 : List InitEv) : InitRun :=
  let tr3 := tr2 ++ [.netConnect]
  if !env.connectOk then
    { outcome := .caughtExit, store := st1, trace := tr3 }
  else
    match env.pubKey with
    | none => { outcome := .noPubKeyExit, store := st1, trace := tr3 }
    | some pub =>
      if !(addPublicKeyToRemote env.ssh pub).1.success then
        { outcome := .installFailExit, store := st1, trace := tr3 }
      else if env.checkConfigThrows then
        { outcome := .caughtExit, store := st1, trace := tr3 }
      else if !env.privKeyReadable then
        { outcome := .keyReadFailExit, store := st1, trace := tr3 }
      else
        let tr4 := tr3 ++ [.netConnect]
        if !env.verifyOk then
          { outcome := .verifyFailExit, store := st1, trace := tr4 }
        else
          { outcome := .success, store := addServer st1 name (initRecord env),
            trace := tr4 ++ [.addWrite name] }

/-- Step 2 of init placed as the code places it (init.js 228-233): the duplicate
host and user check, after the key ensure and before any session. -/
def initConflict (env : InitEnv) (st1 : StoreState) (name : String) (tr2 : List InitEv) : InitRun :=
  match findServerByHostUser st1 env.host env.user with
  | some existing =>
    { outcome := .conflictExit existing, store := st1,
      trace := tr2 ++ [.conflictRejected existing] }
  | none => initSession env st1 name tr2

/-- init (init.js 172-301): replace confirmation with removal, prompts, local key
ensure or generation, duplicate host and user conflict check, password session,
public key install, config check, key verification session, and only then the
store write of host, user, port, authType and keyPath. -/
def init (env : InitEnv) (st0 : StoreState) (name : String) : InitRun :=
  if hasServer st0 name && !env.replaceAnswer then
    { outcome := .canceled, store := st0, trace := [] }
  else
    let st1 := if hasServer st0 name then removeServer st0 name else st0
    let tr1 : List InitEv := if hasServer st0 name then [.removeWrite name] else []
    let tr2 := tr1 ++ [.keyEnsured (!env.keyExists)]
    if !env.keyExists && !env.keygenOk then
      { outcome := .keygenFailExit, store := st1, trace := tr2 }
    else
      initConflict env st1 name tr2

lemma initSession_store (env : InitEnv) (st1 : StoreState) (name : String) (tr2 : List InitEv) :
    (initSession env st1 name tr2).outcome = .success ∨
      (initSession env st1 name tr2).store = st1 := by
  unfold initSession
  repeat' split
  all_goals simp

lemma initSession_addWrite (env : InitEnv) (st1 : StoreState) (name : String) (tr2 : List InitEv)
    (htr : InitEv.addWrite name ∉ tr2) :
    (InitEv.addWrite name ∈ (initSession env st1 name tr2).trace →
      (initSession env st1 name tr2).outcome = .success) := by
  unfold initSession
  repeat' split
  all_goals simp_all

lemma initSession_no_conflict (env : InitEnv) (st1 : StoreState) (name : String)
    (tr2 : List InitEv) (ex : String) :
    (initSession env st1 name tr2).outcome ≠ .conflictExit ex := by
  unfold initSession
  repeat' split
  all_goals simp

lemma initConflict_store (env : InitEnv) (st1 : StoreState) (name : String) (tr2 : List InitEv) :
    (initConflict env st1 name tr2).outcome = .success ∨
      (initConflict env st1 name tr2).store = st1 := by
  unfold initConflict
  split
  · simp
  · exact initSession_store env st1 name tr2

lemma initConflict_addWrite (env : InitEnv) (st1 : StoreState) (name : String) (tr2 : List InitEv)
    (htr : InitEv.addWrite name ∉ tr2) :
    (InitEv.addWrite name ∈ (initConflict env st1 name tr2).trace →
      (initConflict env st1 name tr2).outcome = .success) := by
  unfold initConflict
  split
  · simp_all
  · exact initSession_addWrite env st1 name tr2 htr

lemma initConflict_trace (env : InitEnv) (st1 : StoreState) (name : String) (tr2 : List InitEv)
    (ex : String) (hout : (initConflict env st1 name tr2).outcome = .conflictExit ex) :
    (initConflict env st1 name tr2).trace = tr2 ++ [.conflictRejected ex] := by
  unfold initConflict at hout ⊢
  split at hout
  · simp_all
  · exact absurd hout (initSession_no_conflict env st1 name tr2 ex)

lemma lookupAssoc_replace_base (st0 : StoreState) (name : String) :
    lookupAssoc (if hasServer st0 name then removeServer st0 name else st0).config name = none := by
  by_cases h : hasServer st0 name
  · simp [h, removeServer, lookupAssoc_delAssoc_self]
  · have hn : lookupAssoc st0.config name = none := by
      rcases hv : lookupAssoc st0.config name with _ | v
      · rfl
      · exact absurd (by simp [hasServer, hv]) h
    simp [h, hn]

/-- C2: when both installer methods fail or the key verification session fails,
the config store holds no entry for the alias afterwards, and a record is
written only on a fully successful run. -/
lemma init_eq_conflict (env : InitEnv) (st0 : StoreState) (name : String)
    (hrep : (hasServer st0 name && !env.replaceAnswer) = false)
    (hkg : (!env.keyExists && !env.keygenOk) = false) :
    init env st0 name =
      initConflict env (if hasServer st0 name then removeServer st0 name else st0) name
        ((if hasServer st0 name then [InitEv.removeWrite name] else []) ++
          [.keyEnsured (!env.keyExists)]) := by
  simp [init, hrep, hkg]

theorem init_all_or_nothing (env : InitEnv) (st0 : StoreState) (name : String) :
    ((init env st0 name).outcome = .installFailExit ∨
      (init env st0 name).outcome = .verifyFailExit →
        lookupAssoc (init env st0 name).store.config name = none) ∧
    (InitEv.addWrite name ∈ (init env st0 name).trace →
      (init env st0 name).outcome = .success) := by
  have hbase := lookupAssoc_replace_base st0 name
  by_cases hrep : (hasServer st0 name && !env.replaceAnswer) = true
  · constructor
    · rintro (h | h) <;> simp [init, hrep] at h
    · intro h; simp [init, hrep] at h
  · rw [Bool.not_eq_true] at hrep
    by_cases hkg : (!env.keyExists && !env.keygenOk) = true
    · have hinit : init env st0 name =
          { outcome := .keygenFailExit,
            store := if hasServer st0 name then removeServer st0 name else st0,
            trace := (if hasServer st0 name then [InitEv.removeWrite name] else []) ++
              [.keyEnsured (!env.keyExists)] } := by
        simp [init, hrep, hkg]
      rw [hinit]
      constructor
      · rintro (h | h) <;> simp at h
      · intro h
        exfalso
        revert h
        split <;> simp
    · rw [Bool.not_eq_true] at hkg
      rw [init_eq_conflict env st0 name hrep hkg]
      constructor
      · intro hout
        rcases initConflict_store env
            (if hasServer st0 name then removeServer st0 name else st0) name
            ((if hasServer st0 name then [InitEv.removeWrite name] else []) ++
              [.keyEnsured (!env.keyExists)]) with hs | hstore
        · rcases hout with h | h <;> rw [hs] at h <;> simp at h
        · rw [hstore]; exact hbase
      · refine initConflict_addWrite env _ name _ ?_
        split <;> simp

/-- An environment in which the password session works but both install methods
fail against the session oracle. -/
def envInstallFail : InitEnv :=
  { replaceAnswer := false, host := "203.0.113.10", user := "deploy", port := 22,
    keyExists := true, keygenOk := true, connectOk := true,
    pubKey := some "ssh-rsa AAAATESTKEY comment", ssh := failingSsh,
    checkConfigThrows := false, privKeyReadable := true, verifyOk := true }

/-- Witness for C2: a run whose install fails leaves no entry for the alias. -/
theorem init_all_or_nothing_witness :
    lookupAssoc (init envInstallFail emptyStore "web1").store.config "web1" = none :=
  (init_all_or_nothing envInstallFail emptyStore "web1").1 (Or.inl (by decide))

/-- A store in which the alias to be re-created exists and a different alias owns
the same host and user pair. -/
def conflictStore : StoreState :=
  { config :=
      [("web1", [("host", .str "203.0.113.10"), ("user", .str "deploy"), ("authType", .str "key")]),
       ("other", [("host", .str "203.0.113.10"), ("user", .str "deploy"), ("authType", .str "key")])],
    secrets := [] }

/-- An environment that confirms replacement and has no local key yet. -/
def conflictEnv : InitEnv :=
  { replaceAnswer := true, host := "203.0.113.10", user := "deploy", port := 22,
    keyExists := false, keygenOk := true, connectOk := true, pubKey := some "k",
    ssh := fun _ => { code := some 0, stdout := "", stderr := "" },
    checkConfigThrows := false, privKeyReadable := true, verifyOk := true }

/-- Counterexample for C5: a run that ends in the conflict rejection whose trace
shows the removal store write and the key generation happening strictly before
the rejection, contradicting the claimed ordering. -/
theorem init_conflict_after_keygen :
    (init conflictEnv conflictStore "web1").outcome = .conflictExit "other" ∧
    (init conflictEnv conflictStore "web1").trace =
      [.removeWrite "web1", .keyEnsured true, .conflictRejected "other"] :=
  ⟨rfl, rfl⟩

/-- C5 amended: a conflict rejection is a distinct outcome that precedes all
network activity and the new record write, though it can come after the local
key ensure or generation and after the removal write of a confirmed
replacement. -/
theorem init_conflict_before_network_and_write (env : InitEnv) (st0 : StoreState)
    (name existing : String)
    (hout : (init env st0 name).outcome = .conflictExit existing) :
    InitEv.netConnect ∉ (init env st0 name).trace ∧
    (∀ m, InitEv.addWrite m ∉ (init env st0 name).trace) ∧
    InitEv.conflictRejected existing ∈ (init env st0 name).trace := by
  by_cases hrep : (hasServer st0 name && !env.replaceAnswer) = true
  · simp [init, hrep] at hout
  · rw [Bool.not_eq_true] at hrep
    by_cases hkg : (!env.keyExists && !env.keygenOk) = true
    · simp [init, hrep, hkg] at hout
    · rw [Bool.not_eq_true] at hkg
      rw [init_eq_conflict env st0 name hrep hkg] at hout ⊢
      rw [initConflict_trace env _ name _ existing hout]
      refine ⟨?_, fun m => ?_, by simp⟩
      · simp only [List.mem_append, List.mem_singleton]
        rintro ((h | h) | h)
        · revert h; split <;> simp
        · simp at h
        · simp at h
      · simp only [List.mem_append, List.mem_singleton]
        rintro ((h | h) | h)
        · revert h; split <;> simp
        · simp at h
        · simp at h

/-- Witness for C5 amended at the concrete conflicting run. -/
theorem init_conflict_before_network_and_write_witness :
    InitEv.netConnect ∉ (init conflictEnv conflictStore "web1").trace ∧
    InitEv.addWrite "web1" ∉ (init conflictEnv conflictStore "web1").trace ∧
    InitEv.conflictRejected "other" ∈ (init conflictEnv conflictStore "web1").trace := by
  have h := init_conflict_before_network_and_write conflictEnv conflictStore "web1" "other" rfl
  exact ⟨h.1, h.2.1 "web1", h.2.2⟩

/-- Result of the retry wrapper: the operation value, the failure sentinel
carrying the last error message, or the TypeError raised by reading the message
property of an undefined lastError when no attempt ever ran. -/
inductive RetryResult (α : Type) where
  | ok (a : α)
  | failSentinel (msg : String)
  | typeError
deriving DecidableEq, Repr

/-- Loop bound of the retry loop (edge-cases.js 328): a numeric maxRetries field
bounds i; with the field absent the comparison of i against undefined is false
and the body never runs. -/
def loopBound (options : Obj) : Nat :=
  match jsGet options "maxRetries" with
  | .num n => n.toNat
  | _ => 0

/-- The initialDelay field when numeric; none models an undefined field whose
numeric products are NaN. -/
def initialDelayOf (options : Obj) : Option Int :=
  match jsGet options "initialDelay" with
  | .num n => some n
  | _ => none

/-- The for loop of retryWithBackoff (edge-cases.js 328-339) from attempt i with
fuel counting the remaining iterations, carrying the last error; returns the
outcome and the delays slept (none models a NaN delay). -/
def retryLoop {α : Type} (fn : Nat → Except String α) (d0 : Option Int) (maxR : Nat) :
    Nat → Nat → Option String → RetryResult α × List (Option Int)
  | 0, _, last =>
    match last with
    | some e => (.failSentinel e, [])
    | none => (.typeError, [])
  | fuel + 1, i, _last =>
    match fn i with
    | .ok a => (.ok a, [])
    | .error e =>
      let ds : List (Option Int) := if i < maxR - 1 then [d0.map (fun d => d * 2 ^ i)] else []
      let r := retryLoop fn d0 maxR fuel (i + 1) (some e)
      (r.1, ds ++ r.2)

/-- retryWithBackoff (edge-cases.js 323-342): options or the defaults, then the
retry loop over maxRetries attempts starting at attempt 0 with no last error. -/
def retryWithBackoff {α : Type} (fn : Nat → Except String α) (options : Option Obj) :
    RetryResult α × List (Option Int) :=
  let defaults : Obj := [("maxRetries", .num 3), ("initialDelay", .num 100)]
  let finalOptions := options.getD defaults
  retryLoop fn (initialDelayOf finalOptions) (loopBound finalOptions) (loopBound finalOptions) 0 none

/-- The doubling delay sequence starting at exponent i. -/
def doublingDelays (d : Int) (i : Nat) : Nat → List (Option Int)
  | 0 => []
  | c + 1 => some (d * 2 ^ i) :: doublingDelays d (i + 1) c

lemma retryLoop_step {α : Type} (fn : Nat → Except String α) (d0 : Option Int) (maxR fuel i : Nat)
    (last : Option String) (e : String) (he : fn i = .error e) :
    retryLoop fn d0 maxR (fuel + 1) i last =
      ((retryLoop fn d0 maxR fuel (i + 1) (some e)).1,
       (if i < maxR - 1 then [d0.map (fun d => d * 2 ^ i)] else []) ++
         (retryLoop fn d0 maxR fuel (i + 1) (some e)).2) := by
  simp only [retryLoop, he]

lemma retryLoop_all_fail {α : Type} (fn : Nat → Except String α) (d : Int) :
    ∀ (fuel i : Nat) (last : Option String) (maxR : Nat), maxR = i + fuel → 1 ≤ fuel →
    (∀ k, i ≤ k → k < maxR → ∃ e, fn k = .error e) →
    ∃ e, fn (maxR - 1) = .error e ∧
      retryLoop fn (some d) maxR fuel i last = (.failSentinel e, doublingDelays d i (fuel - 1)) := by
  intro fuel
  induction fuel with
  | zero => intro i last maxR hm h1; omega
  | succ f ih =>
    intro i last maxR hm _ hfail
    obtain ⟨e, he⟩ := hfail i (le_refl i) (by omega)
    cases f with
    | zero =>
      refine ⟨e, ?_, ?_⟩
      · have : maxR - 1 = i := by omega
        rw [this]; exact he
      · have hds : ¬(i < maxR - 1) := by omega
        simp [retryLoop, he, hds, doublingDelays]
    | succ f2 =>
      obtain ⟨e2, he2, hrec⟩ := ih (i + 1) (some e) maxR (by omega) (by omega)
        (fun k hk1 hk2 => hfail k (by omega) hk2)
      refine ⟨e2, he2, ?_⟩
      have hds : i < maxR - 1 := by omega
      rw [retryLoop_step fn (some d) maxR (f2 + 1) i last e he, hrec]
      simp [hds, doublingDelays]

lemma retryLoop_success {α : Type} (fn : Nat → Except String α) (d : Int) :
    ∀ (fuel i : Nat) (last : Option String) (maxR j : Nat) (v : α), maxR = i + fuel →
    i ≤ j → j < maxR →
    (∀ k, i ≤ k → k < j → ∃ e, fn k = .error e) →
    fn j = .ok v →
    retryLoop fn (some d) maxR fuel i last = (.ok v, doublingDelays d i (j - i)) := by
  intro fuel
  induction fuel with
  | zero => intro i last maxR j v hm hij hj hfail hok; omega
  | succ f ih =>
    intro i last maxR j v hm hij hj hfail hok
    by_cases hji : j = i
    · subst hji
      have : j - j = 0 := by omega
      simp [retryLoop, hok, this, doublingDelays]
    · obtain ⟨e, he⟩ := hfail i (le_refl i) (by omega)
      have hrec := ih (i + 1) (some e) maxR j v (by omega) (by omega) hj
        (fun k hk1 hk2 => hfail k (by omega) hk2) hok
      have hds : i < maxR - 1 := by omega
      have hsplit : j - i = (j - (i + 1)) + 1 := by omega
      simp only [retryLoop, he, hds, if_true, hrec, hsplit, doublingDelays]
      simp

/-- C8 amended: with options named maxRetries and initialDelay as the code
spells them, the wrapper stops at the first success returning its value, sleeps
the doubling delay sequence between failed attempts, and after maxRetries
failed attempts returns the sentinel carrying the last error message. -/
theorem retryWithBackoff_spec (fn : Nat → Except String Nat) (n : Nat) (d : Int) (hn : 1 ≤ n) :
    ((∀ k, k < n → ∃ e, fn k = .error e) →
      ∃ e, fn (n - 1) = .error e ∧
        retryWithBackoff fn (some [("maxRetries", .num (n : Int)), ("initialDelay", .num d)]) =
          (.failSentinel e, doublingDelays d 0 (n - 1))) ∧
    (∀ j v, j < n → (∀ k, k < j → ∃ e, fn k = .error e) → fn j = .ok v →
      retryWithBackoff fn (some [("maxRetries", .num (n : Int)), ("initialDelay", .num d)]) =
        (.ok v, doublingDelays d 0 j)) := by
  have hopts : loopBound [("maxRetries", JsVal.num (n : Int)), ("initialDelay", JsVal.num d)] = n := by
    simp [loopBound, jsGet]
  have hdelay :
      initialDelayOf [("maxRetries", JsVal.num (n : Int)), ("initialDelay", JsVal.num d)] = some d := by
    simp [initialDelayOf, jsGet]
  constructor
  · intro hfail
    obtain ⟨e, he, hr⟩ := retryLoop_all_fail fn d n 0 none n (by omega) hn
      (fun k _ hk => hfail k hk)
    exact ⟨e, he, by simpa [retryWithBackoff, hopts, hdelay] using hr⟩
  · intro j v hj hfail hok
    have hr := retryLoop_success fn d n 0 none n j v (by omega) (by omega) hj
      (fun k _ hk => hfail k hk) hok
    simpa [retryWithBackoff, hopts, hdelay] using hr

/-- Counterexample for C8: with the options keyed maxAttempts as the claim names
them, the loop bound collapses, no attempt is ever invoked even for an
always-succeeding operation, and the wrapper ends in a TypeError instead of a
result or the last error. -/
theorem retryWithBackoff_maxAttempts_counterexample :
    retryWithBackoff (fun _ => Except.ok (42 : Nat))
      (some [("maxAttempts", .num 2), ("initialDelay", .num 10)]) = (.typeError, []) ∧
    retryWithBackoff (fun _ => (Except.error "boom" : Except String Nat))
      (some [("maxAttempts", .num 2), ("initialDelay", .num 10)]) = (.typeError, []) :=
  ⟨rfl, rfl⟩

/-- An operation failing on attempts 0 and 1 and succeeding on attempt 2. -/
def flaky : Nat → Except String Nat := fun i => if i == 2 then .ok 7 else .error "boom"

/-- Witness for C8 amended: three attempts with initial delay 100 stop at the
third attempt with the delays 100 and 200 slept. -/
theorem retryWithBackoff_spec_witness :
    retryWithBackoff flaky (some [("maxRetries", .num 3), ("initialDelay", .num 100)]) =
      (.ok 7, doublingDelays 100 0 2) := by
  have h := (retryWithBackoff_spec flaky 3 100 (by omega)).2 2 7 (by omega)
    (fun k hk => ⟨"boom", by interval_cases k <;> rfl⟩) rfl
  exact h

end Fastssh
